import Mathlib

/-
Shallow embedding of the Audio-Scrambler repository (Scrambler.py and
WaveformData.py) and proofs about its masking, streaming, decoding and
waveform-preview behaviour.

Machine integers are modelled as Int together with explicit reduction
modulo two to the bit size where numpy would wrap (astype casts, bitwise
xor on signed dtypes).  The numpy pseudo random generator is modelled at
the level of its underlying 32-bit word stream: numpy documents that a
generator constructed from a given seed produces a reproducible word
stream, so the w-th word is a function of the seed and of w alone.  That
word function is a parameter (ks) of every definition that draws values.
The generator state is the number of words consumed so far.  The bounded
full-range fill paths that the program exercises consume that stream
per call: dtype uint8 packs four values into each word and dtype int16
two values, through a 32-bit buffer that is local to one integers call
and is discarded when the call returns, while dtype int32 consumes one
whole word per value.  A call therefore always starts at a word
boundary, which is what makes re-batching of calls observable.
-/

namespace AudioScrambler

/-- Interpretation of an unsigned bit pattern below 2 ^ bits as a signed
two-complement integer of that bit size. -/
def toSigned (bits : Nat) (u : Nat) : Int :=
  if u < 2 ^ (bits - 1) then (u : Int) else (u : Int) - 2 ^ bits

/-- Reduction of an integer to its unsigned bit pattern modulo 2 ^ bits,
the wrap-around that numpy performs when casting to a narrower dtype. -/
def wrapU (bits : Nat) (v : Int) : Nat :=
  (v % ((2 ^ bits : Nat) : Int)).toNat

/-- Model of a numpy astype cast to a signed dtype of the given bit size:
wrap the value, then reinterpret the pattern as signed. -/
def astypeI (bits : Nat) (v : Int) : Int := toSigned bits (wrapU bits v)

/-- Bitwise xor of two signed machine integers of the given bit size, as
np.bitwise_xor computes it on a signed dtype: xor of the two-complement
patterns, reinterpreted as signed. -/
def xorI (bits : Nat) (a b : Int) : Int :=
  toSigned bits (wrapU bits a ^^^ wrapU bits b)

/-- State of one np.random.default_rng generator: the seed it was built
from and the number of underlying 32-bit words consumed so far (its
keystream position in the word stream). -/
structure Gen where
  seed : Nat
  pos : Nat
deriving DecidableEq

/-- Model of np.random.default_rng(seed): a fresh generator at position 0. -/
def defaultRng (seed : Nat) : Gen := ⟨seed, 0⟩

/-- Value number i of one full-range integers call of the given sample
width, drawn from the word stream ks at seed and word position pos.  The
width-1 fill (buffered uint8 path) takes the four bytes of each word in
low-to-high order, the width-2 fill (buffered uint16 path) the two
halves of each word in low-to-high order, and the width-4 fill one whole
word per value.  The index i is relative to the start of the call, which
always begins on a word boundary because the fill buffer is per-call. -/
def wordVal (sw : Nat) (ks : Nat → Nat → Nat) (seed pos i : Nat) : Nat :=
  if sw = 1 then (ks seed (pos + i / 4) >>> (8 * (i % 4))) % 256
  else if sw = 2 then (ks seed (pos + i / 2) >>> (16 * (i % 2))) % 65536
  else ks seed (pos + i) % 4294967296

/-- Words of the underlying stream consumed by one integers call of n
values at the given sample width: a partly used final buffer word is
consumed and its remainder discarded when the call returns. -/
def wordsUsed (sw n : Nat) : Nat :=
  if sw = 1 then (n + 3) / 4 else if sw = 2 then (n + 1) / 2 else n

/-- Values carried by one whole buffer word at the given sample width. -/
def perWord (sw : Nat) : Nat :=
  if sw = 1 then 4 else if sw = 2 then 2 else 1

/-- Model of rng.integers(low, high, size = n, dtype = d) for the three
full-width power-of-two domains the program requests (dom tracks the
dtype of the call, the only widths _apply_mask_core draws).  The call
returns the next n values of the per-width value stream and advances the
generator by the words it consumed.  The off + u shift of the bounded
fills amounts to a fixed xor of each word of the stream, absorbed into
the abstract word function ks. -/
def integersN (ks : Nat → Nat → Nat) (dom n : Nat) (g : Gen) : List Nat × Gen :=
  if dom = 256 then
    ((List.range n).map fun i => wordVal 1 ks g.seed g.pos i,
     ⟨g.seed, g.pos + wordsUsed 1 n⟩)
  else if dom = 65536 then
    ((List.range n).map fun i => wordVal 2 ks g.seed g.pos i,
     ⟨g.seed, g.pos + wordsUsed 2 n⟩)
  else
    ((List.range n).map fun i => wordVal 4 ks g.seed g.pos i,
     ⟨g.seed, g.pos + wordsUsed 4 n⟩)

/-- Model of a numpy ndarray: its shape and its flattened element list.
The element count of a well-formed array is the product of the shape. -/
structure NdArr where
  shape : List Nat
  flat : List Int
deriving DecidableEq

/-- Python exceptions that the embedded code can raise, named after the
raise sites in the source (RuntimeError and ValueError in Scrambler.py,
numpy errors from broadcasting, reshape, frombuffer, and zero division,
and an OS error for an unwritable output path). -/
inductive PyErr where
  | notInitErr
  | paramsErr
  | misalignedErr
  | reshapeErr
  | broadcastErr
  | frombufferErr
  | zeroDivErr
  | osWriteErr
  | writeWidthErr
deriving DecidableEq

/-- Elementwise combination of a data list with a mask list under numpy
1-D broadcasting: equal lengths combine pointwise, a length-one operand
broadcasts, anything else is a broadcast error (none). -/
def bcast1 (op : Int → Nat → Int) (a : List Int) (b : List Nat) : Option (List Int) :=
  if a.length = b.length then some (List.zipWith op a b)
  else if a.length = 1 then some (b.map fun u => op a.headI u)
  else if b.length = 1 then some (a.map fun v => op v b.headI)
  else none

/-- Masking of one 8-bit sample, from the sampwidth == 1 branch of
_apply_mask_core: the internal signed-like value v is shifted back to
unsigned by adding 128 and cast to uint8 (wrap modulo 256), xored with a
keystream byte, widened to int16 and shifted down by 128 again. -/
def mask1 (v : Int) (u : Nat) : Int :=
  ((wrapU 8 (v + 128) ^^^ (u % 256) : Nat) : Int) - 128

/-- Masking of one signed sample of the given bit size (16 for the
sampwidth == 2 branch, 32 for the sampwidth == 4 branch of
_apply_mask_core): the sample is cast to the dtype, the keystream pattern
is interpreted as a signed value of the dtype, and the two are xored. -/
def maskS (bits : Nat) (v : Int) (u : Nat) : Int :=
  xorI bits (astypeI bits v) (toSigned bits (u % 2 ^ bits))

/-- Model of the data.reshape(-1, n_channels) step performed by
_apply_mask_core when the input array is not two-dimensional. -/
def ensure2d (data : NdArr) (nChannels : Nat) : Except PyErr NdArr :=
  if data.shape.length = 2 then .ok data
  else if nChannels ≠ 0 ∧ data.flat.length % nChannels = 0 then
    .ok ⟨[data.flat.length / nChannels, nChannels], data.flat⟩
  else .error .reshapeErr

/-- Tail of each width branch of _apply_mask_core: xor the flattened data
with the drawn mask under broadcasting, then reshape the result back to
(n_frames, n_channels); a length mismatch at either step is the numpy
ValueError that the source does not catch. -/
def finishMask (op : Int → Nat → Int) (flat : List Int) (ms : List Nat)
    (nFrames nChannels : Nat) : Except PyErr NdArr :=
  match bcast1 op flat ms with
  | none => .error .broadcastErr
  | some rf =>
    if rf.length = nFrames * nChannels then .ok ⟨[nFrames, nChannels], rf⟩
    else .error .reshapeErr

/-- Model of AudioScrambler._apply_mask_core: ensure the data is 2-D,
draw n_frames * n_channels keystream values in the domain of the active
sample width, xor them with the flattened samples, and reshape back.  An
unsupported sample width returns the data unchanged (the silent fallback
in the source) and draws nothing.  The generator state is returned in
all cases, advanced whenever a supported-width branch drew values. -/
def applyMaskCore (ks : Nat → Nat → Nat) (sampwidth nChannels : Nat)
    (data : NdArr) (g : Gen) : Except PyErr NdArr × Gen :=
  match ensure2d data nChannels with
  | .error e => (.error e, g)
  | .ok d =>
    let nFrames := d.shape.headI
    let n := nFrames * nChannels
    if sampwidth = 1 then
      let p := integersN ks 256 n g
      (finishMask mask1 d.flat p.1 nFrames nChannels, p.2)
    else if sampwidth = 2 then
      let p := integersN ks 65536 n g
      (finishMask (maskS 16) d.flat p.1 nFrames nChannels, p.2)
    else if sampwidth = 4 then
      let p := integersN ks 4294967296 n g
      (finishMask (maskS 32) d.flat p.1 nFrames nChannels, p.2)
    else (.ok d, g)

/-- Streaming state of one AudioScrambler instance: the persistent
generator and the audio format parameters, all None until init_stream. -/
structure ScramblerSt where
  rng : Option Gen
  sampwidth : Option Nat
  nChannels : Option Nat
deriving DecidableEq

/-- State of a freshly constructed AudioScrambler: streaming fields unset. -/
def mkScrambler : ScramblerSt := ⟨none, none, none⟩

/-- Model of AudioScrambler.init_stream: construct a persistent generator
from the configured seed (at keystream position zero) and record the
sample width and channel count. -/
def initStream (seed sampwidth nChannels : Nat) : ScramblerSt :=
  ⟨some (defaultRng seed), some sampwidth, some nChannels⟩

/-- Model of AudioScrambler._process_stream_chunk (the shared body of
scramble_chunk and unscramble_chunk): require an initialized stream,
reshape a flat chunk to (frames, channels) after the divisibility check,
run the masking core against the persistent generator, and restore the
flatness of the input.  The updated generator is stored back even when
the core raises, because the source mutates the generator in place. -/
def processStreamChunk (ks : Nat → Nat → Nat) (st : ScramblerSt)
    (chunk : NdArr) : Except PyErr NdArr × ScramblerSt :=
  match st.rng with
  | none => (.error .notInitErr, st)
  | some g =>
    match st.sampwidth, st.nChannels with
    | some sw, some nch =>
      if chunk.shape.length = 1 then
        if chunk.flat.length % nch ≠ 0 then (.error .misalignedErr, st)
        else
          let data : NdArr := ⟨[chunk.flat.length / nch, nch], chunk.flat⟩
          let p := applyMaskCore ks sw nch data g
          (p.1.map fun m => ⟨[m.flat.length], m.flat⟩,
           { st with rng := some p.2 })
      else
        let p := applyMaskCore ks sw nch chunk g
        (p.1, { st with rng := some p.2 })
    | _, _ => (.error .paramsErr, st)

/-- Sequential streaming of a list of flat chunks through
processStreamChunk, threading the state and collecting the flat output
of each successful call (a failed call contributes an empty list). -/
def streamChunks (ks : Nat → Nat → Nat) (st : ScramblerSt) :
    List (List Int) → List (List Int) × ScramblerSt
  | [] => ([], st)
  | c :: cs =>
    let p := processStreamChunk ks st ⟨[c.length], c⟩
    let q := streamChunks ks p.2 cs
    ((match p.1 with
      | .ok a => a.flat
      | .error _ => []) :: q.1, q.2)

/-- Little-endian decoding of two bytes as a signed 16-bit sample, the
numpy frombuffer view with dtype int16. -/
def leInt16 (b0 b1 : Nat) : Int := toSigned 16 (b0 % 256 + 256 * (b1 % 256))

/-- Little-endian decoding of four bytes as a signed 32-bit sample, the
numpy frombuffer view with dtype int32. -/
def leInt32 (b0 b1 b2 b3 : Nat) : Int :=
  toSigned 32 (b0 % 256 + 256 * (b1 % 256) + 65536 * (b2 % 256) + 16777216 * (b3 % 256))

/-- Model of np.frombuffer with dtype int16: pair the bytes little-endian;
a buffer whose length is not a multiple of two is a numpy ValueError. -/
def frombuffer2 : List Nat → Option (List Int)
  | [] => some []
  | b0 :: b1 :: rest => (frombuffer2 rest).map fun xs => leInt16 b0 b1 :: xs
  | [_] => none

/-- Model of np.frombuffer with dtype int32: group the bytes in fours,
little-endian; a length that is not a multiple of four is a ValueError. -/
def frombuffer4 : List Nat → Option (List Int)
  | b0 :: b1 :: b2 :: b3 :: rest => (frombuffer4 rest).map fun xs => leInt32 b0 b1 b2 b3 :: xs
  | [] => some []
  | _ => none

/-- Outcome of AudioScrambler._read_wav_int: a decoded sample matrix with
the container parameters, the failure return (None, 0, 0, 0), or an
uncaught library exception escaping the function. -/
inductive ReadRes where
  | ok (a : NdArr) (sr sw nch : Nat)
  | fail
  | raised (e : PyErr)
deriving DecidableEq

/-- Reshape stage of _read_wav_int: data.reshape(-1, n_channels), and on
a ValueError the fallback that trims to the largest whole number of
frames, failing when no complete frame remains.  A zero channel count
would make the fallback divide by zero, an uncaught exception. -/
def finishRead (data : List Int) (sr sw nch : Nat) : ReadRes :=
  if nch = 0 then .raised .zeroDivErr
  else if data.length % nch = 0 then .ok ⟨[data.length / nch, nch], data⟩ sr sw nch
  else
    let frames := data.length / nch
    if frames = 0 then .fail
    else .ok ⟨[frames, nch], data.take (frames * nch)⟩ sr sw nch

/-- Model of AudioScrambler._read_wav_int on the raw frame bytes and the
container header values that the wave module reports: an empty byte
string or an unsupported sample width is the failure return, otherwise
the bytes are viewed at the sample width (1-byte samples are widened and
shifted by 128 into a signed-like range) and reshaped with the trimming
fallback. -/
def readWavInt (raw : List Nat) (sr sw nch : Nat) : ReadRes :=
  if raw.isEmpty then .fail
  else if sw = 1 then
    finishRead (raw.map fun b => ((b % 256 : Nat) : Int) - 128) sr sw nch
  else if sw = 2 then
    match frombuffer2 raw with
    | none => .raised .frombufferErr
    | some data => finishRead data sr sw nch
  else if sw = 4 then
    match frombuffer4 raw with
    | none => .raised .frombufferErr
    | some data => finishRead data sr sw nch
  else .fail

/-- Conversion stage of AudioScrambler._write_wav_int: for 1-byte width
the internal values are clipped to [-128, 127] and shifted back to
[0, 255]; for 2-byte width they are clipped to the int16 range; for
4-byte width they are cast to int32 with wrap-around. -/
def writeConvert (sw : Nat) (flat : List Int) : List Int :=
  if sw = 1 then flat.map fun v => min 255 (max 0 (v + 128))
  else if sw = 2 then flat.map fun v => min 32767 (max (-32768) v)
  else flat.map fun v => astypeI 32 v

/-- Observable outcome of one scramble_file or unscramble_file call:
an early return with no output written, a written output file, or an
uncaught exception propagating to the caller. -/
inductive FileOutcome where
  | noOutput
  | wrote (out : List Int) (sr sw nch : Nat)
  | raised (e : PyErr)
deriving DecidableEq

/-- Whether a file call surfaced any failure to its caller; the source
returns None from scramble_file in every non-raising path, so only an
uncaught exception is visible as a failure. -/
def FileOutcome.isFailure : FileOutcome → Bool
  | .raised _ => true
  | _ => false

/-- Model of a WAV file as presented to _read_wav_int: the header fields
the wave module reports and the raw frame bytes. -/
structure WavFile where
  sr : Nat
  sw : Nat
  nch : Nat
  raw : List Nat
deriving DecidableEq

/-- Model of AudioScrambler.scramble_file.  The input is None when the
path cannot be opened (the wave exception is caught inside _read_wav_int
and surfaces as the failure return); a failed read is logged and the
function returns with no output.  Otherwise a fresh generator is built
from the seed, the masking core runs, and the result is converted and
written; writeOk is false when the output path cannot be opened, in
which case the OS exception propagates uncaught. -/
def scrambleFile (ks : Nat → Nat → Nat) (seed : Nat) (input : Option WavFile)
    (writeOk : Bool) : FileOutcome :=
  match input with
  | none => .noOutput
  | some f =>
    match readWavInt f.raw f.sr f.sw f.nch with
    | .fail => .noOutput
    | .raised e => .raised e
    | .ok data sr sw nch =>
      let p := applyMaskCore ks sw nch data (defaultRng seed)
      match p.1 with
      | .error e => .raised e
      | .ok scrambled =>
        if sw = 1 ∨ sw = 2 ∨ sw = 4 then
          if writeOk then .wrote (writeConvert sw scrambled.flat) sr sw nch
          else .raised .osWriteErr
        else .raised .writeWidthErr

/-- Model of AudioScrambler.unscramble_file, which performs the identical
procedure as scramble_file with a fresh generator from the same seed;
the mode string only changes the log lines. -/
def unscrambleFile (ks : Nat → Nat → Nat) (seed : Nat) (input : Option WavFile)
    (writeOk : Bool) : FileOutcome :=
  scrambleFile ks seed input writeOk

/-- Model of a sequence of domain requests against one generator: each
request (dom, n) draws n values in [0, dom) through integersN, threading
the generator state; the produced value lists are collected in order. -/
def runRequests (ks : Nat → Nat → Nat) (g : Gen) :
    List (Nat × Nat) → List (List Nat) × Gen
  | [] => ([], g)
  | r :: rs =>
    let p := integersN ks r.1 r.2 g
    let q := runRequests ks p.2 rs
    (p.1 :: q.1, q.2)

/-- Domain size of the keystream draw for each supported sample width,
matching the low and high arguments of rng.integers in the source. -/
def maskDom (sw : Nat) : Nat :=
  if sw = 1 then 256 else if sw = 2 then 65536 else 4294967296

/-- Per-sample masking operation selected by the sample width. -/
def maskOp (sw : Nat) (v : Int) (u : Nat) : Int :=
  if sw = 1 then mask1 v u else if sw = 2 then maskS 16 v u else maskS 32 v u

/-- Pure description of the flat result of one masking-core run of the
given width on a generator at the given seed and word position: sample i
is combined with value i of the call, wordVal sw ks seed pos i. -/
def maskFlatAt (sw : Nat) (ks : Nat → Nat → Nat) (seed pos : Nat)
    (flat : List Int) : List Int :=
  List.zipWith (maskOp sw) flat
    ((List.range flat.length).map fun i => wordVal sw ks seed pos i)

/-- Validity of one sample value for a sample width: the value lies in
the numeric domain that the width stores (the signed-like byte range for
width 1, the int16 range for width 2, the int32 range for width 4). -/
def sampleInDom (sw : Nat) (v : Int) : Bool :=
  if sw = 1 then decide (-128 ≤ v ∧ v ≤ 127)
  else if sw = 2 then decide (-32768 ≤ v ∧ v ≤ 32767)
  else if sw = 4 then decide (-2147483648 ≤ v ∧ v ≤ 2147483647)
  else false

/-- Concrete keystream function used to evaluate the model on closed
inputs; it instantiates the PRNG stream parameter of the definitions. -/
def ksTest (seed i : Nat) : Nat := seed * 48271 + i * 2654435761 + 12820163

/-- Clamp of np.clip(x, -1.0, 1.0) on exact rational values: values
below -1 become -1, values above 1 become 1. -/
def clipQ (q : ℚ) : ℚ :=
  if q < -1 then -1 else if 1 < q then 1 else q

/-- Mean of one frame across its channels, as data.mean(axis = 1)
computes it for one row, in exact rational arithmetic. -/
def meanRow (row : List Int) : ℚ := ((row.sum : ℚ)) / ((row.length : ℚ))

/-- Rows of the reshape of a flat sample list into (frames, channels). -/
def matRows (data : List Int) (f c : Nat) : List (List Int) :=
  (List.range f).map fun i => (data.drop (i * c)).take c

/-- Stage result of load_waveform before downsampling: the clipped mono
sequence, a handled failure (the source returns an empty list), or an
uncaught exception. -/
inductive WaveStage where
  | ok (cl : List ℚ)
  | handled
  | raised
deriving DecidableEq

/-- Decode stage of load_waveform: the dtype view of the raw bytes and
the per-width maximum amplitude (127, 32768, or 2 ^ 31); none models the
uncaught numpy frombuffer error on a misaligned buffer.  Unsupported
widths are dispatched before this stage. -/
def waveDecode (raw : List Nat) (sw : Nat) : Option (List Int × ℚ) :=
  if sw = 1 then some (raw.map (fun b => ((b % 256 : Nat) : Int) - 128), 127)
  else if sw = 2 then (frombuffer2 raw).map fun d => (d, 32768)
  else (frombuffer4 raw).map fun d => (d, 2147483648)

/-- Decode, downmix, normalize and clip stages of load_waveform, from
the raw frame bytes and the header values of the wave module: bytes are
viewed at the sample width (width 1 widened and centered, widths 2 and 4
little-endian signed), reshaped with the incomplete-frame trim fallback
(a zero channel count makes the fallback divide by zero, an uncaught
exception), averaged across channels into mono, divided by the per-width
maximum amplitude and clipped to [-1, 1].  Float arithmetic of the
source is modelled exactly over the rationals. -/
def waveMono (raw : List Nat) (sw nch : Nat) : WaveStage :=
  if raw.isEmpty then .handled
  else if sw = 1 ∨ sw = 2 ∨ sw = 4 then
    match waveDecode raw sw with
    | none => .raised
    | some (data, maxAbs) =>
      if data.length = 0 then .handled
      else if nch = 0 then .raised
      else if data.length / nch = 0 then .handled
      else .ok ((matRows (data.take (data.length / nch * nch)) (data.length / nch) nch).map
        fun row => clipQ (meanRow row / maxAbs))
  else .handled

/-- Downsampling stage of load_waveform: a mono sequence no longer than
max_points is returned unchanged, a longer one is sampled at the
np.linspace(0, n - 1, max_points) indices truncated to integers. -/
def downsampleWave (cl : List ℚ) (maxPoints : Nat) : List ℚ :=
  if cl.length = 0 then []
  else if cl.length ≤ maxPoints then cl
  else (List.range maxPoints).map fun i => cl.getD (i * (cl.length - 1) / (maxPoints - 1)) 0

/-- Model of WaveformData.load_waveform: none stands for an uncaught
exception, and a handled failure returns the empty list. -/
def loadWaveform (raw : List Nat) (sw nch maxPoints : Nat) : Option (List ℚ) :=
  match waveMono raw sw nch with
  | .raised => none
  | .handled => some []
  | .ok cl => some (downsampleWave cl maxPoints)

/-- Whole-buffer streamed output of the C3 counterexample input. -/
def wholeOut3 : List Int := [16320, 222, -18075]

/-- Concatenated chunk-streamed output of the C3 counterexample input. -/
def chunkedOut3 : List Int := [16320, -18065, -24801]

/-- Concrete raw container for the C9 witness: six 8-bit mono samples. -/
def wfRaw : List Nat := [0, 255, 10, 20, 30, 40]

/-- Mono stage of the C9 witness, computed from wfRaw: the first sample
normalizes to -128 / 127 and clips to -1, the second to exactly 1. -/
def wfMono : List ℚ :=
  [-1, 1, -118 / 127, -108 / 127, -98 / 127, -88 / 127]

/-- Downsampled preview of the C9 witness, three of six mono samples. -/
def wfOut : List ℚ :=
  (List.range 3).map fun i => wfMono.getD (i * (wfMono.length - 1) / (3 - 1)) 0

/-- Bit patterns produced by wrapU are below the width bound. -/
lemma wrapU_lt (bits : Nat) (v : Int) : wrapU bits v < 2 ^ bits := by
  obtain ⟨N, hN, hNpos⟩ : ∃ N, (2 : Nat) ^ bits = N ∧ 0 < N :=
    ⟨_, rfl, by positivity⟩
  unfold wrapU
  rw [hN]
  have h1 := Int.emod_nonneg v (show ((N : Nat) : Int) ≠ 0 by exact_mod_cast hNpos.ne')
  have h2 := Int.emod_lt_of_pos v (show (0 : Int) < ((N : Nat) : Int) by exact_mod_cast hNpos)
  omega

/-- Wrapping a cast pattern that is already in range changes nothing. -/
lemma wrapU_natCast (bits u : Nat) (hu : u < 2 ^ bits) :
    wrapU bits ((u : Nat) : Int) = u := by
  unfold wrapU
  rw [Int.emod_eq_of_lt (by positivity) (by exact_mod_cast hu)]
  omega

/-- Signed reinterpretation followed by wrapping recovers the pattern. -/
lemma wrapU_toSigned (bits u : Nat) (hu : u < 2 ^ bits) :
    wrapU bits (toSigned bits u) = u := by
  unfold toSigned
  by_cases h : u < 2 ^ (bits - 1)
  · rw [if_pos h]
    exact wrapU_natCast bits u hu
  · rw [if_neg h]
    unfold wrapU
    have hNi : (2 : Int) ^ bits = ((2 ^ bits : Nat) : Int) := by push_cast; ring
    rw [hNi]
    obtain ⟨N, hN, hNpos, huN⟩ : ∃ N, (2 : Nat) ^ bits = N ∧ 0 < N ∧ u < N :=
      ⟨_, rfl, by positivity, hu⟩
    rw [hN]
    have he : ((u : Int) - (N : Int)) % ((N : Nat) : Int)
        = (u : Int) % ((N : Nat) : Int) := by
      have hrw : ((u : Int) - (N : Int)) = (u : Int) + ((N : Nat) : Int) * (-1) := by ring
      rw [hrw, Int.add_mul_emod_self_left]
    rw [he, Int.emod_eq_of_lt (by positivity) (by exact_mod_cast huN)]
    omega

/-- Wrapping followed by signed reinterpretation is the identity on the
signed domain of the width. -/
lemma toSigned_wrapU (bits : Nat) (hb : bits ≠ 0) (v : Int)
    (h1 : -((2 ^ (bits - 1) : Nat) : Int) ≤ v)
    (h2 : v < ((2 ^ (bits - 1) : Nat) : Int)) :
    toSigned bits (wrapU bits v) = v := by
  have hNi : (2 : Int) ^ bits = ((2 ^ bits : Nat) : Int) := by push_cast; ring
  unfold toSigned wrapU
  rw [hNi]
  obtain ⟨M, hM, hMpos⟩ : ∃ M, (2 : Nat) ^ (bits - 1) = M ∧ 0 < M :=
    ⟨_, rfl, by positivity⟩
  obtain ⟨N, hN, hMN⟩ : ∃ N, (2 : Nat) ^ bits = N ∧ M * 2 = N := by
    refine ⟨_, rfl, ?_⟩
    rw [← hM, ← pow_succ]
    congr 1
    omega
  rw [hM] at h1 h2 ⊢
  rw [hN]
  by_cases hv : 0 ≤ v
  · have hmod : v % ((N : Nat) : Int) = v :=
      Int.emod_eq_of_lt hv (by omega)
    rw [hmod]
    have hcond : v.toNat < M := by omega
    rw [if_pos hcond]
    omega
  · have hmod : v % ((N : Nat) : Int) = v + ((N : Nat) : Int) := by
      have h3 : (v + ((N : Nat) : Int)) % ((N : Nat) : Int)
          = v % ((N : Nat) : Int) := by
        have hrw : v + ((N : Nat) : Int) = v + ((N : Nat) : Int) * 1 := by ring
        rw [hrw, Int.add_mul_emod_self_left]
      have h4 : (v + ((N : Nat) : Int)) % ((N : Nat) : Int)
          = v + ((N : Nat) : Int) :=
        Int.emod_eq_of_lt (by omega) (by omega)
      omega
    rw [hmod]
    have hcond : ¬ (v + ((N : Nat) : Int)).toNat < M := by omega
    rw [if_neg hcond]
    omega

/-- Reduction of maskS to one xor of bit patterns. -/
lemma maskS_eq (bits : Nat) (v : Int) (u : Nat) (hu : u < 2 ^ bits) :
    maskS bits v u = toSigned bits (wrapU bits v ^^^ u) := by
  unfold maskS xorI astypeI
  rw [Nat.mod_eq_of_lt hu, wrapU_toSigned bits u hu,
    wrapU_toSigned bits (wrapU bits v) (wrapU_lt bits v)]

/-- Masking a signed sample twice with the same keystream pattern
recovers the sample, for samples in the signed domain of the width. -/
lemma maskS_invol (bits : Nat) (hb : bits ≠ 0) (v : Int) (u : Nat)
    (hu : u < 2 ^ bits)
    (h1 : -((2 ^ (bits - 1) : Nat) : Int) ≤ v)
    (h2 : v < ((2 ^ (bits - 1) : Nat) : Int)) :
    maskS bits (maskS bits v u) u = v := by
  rw [maskS_eq bits v u hu, maskS_eq bits _ u hu,
    wrapU_toSigned bits _ (Nat.xor_lt_two_pow (wrapU_lt bits v) hu),
    Nat.xor_cancel_right, toSigned_wrapU bits hb v h1 h2]

/-- Masking an 8-bit sample twice with the same keystream byte recovers
the sample, for samples in the internal signed-like byte range. -/
lemma mask1_invol (v : Int) (u : Nat) (hu : u < 256)
    (h1 : -128 ≤ v) (h2 : v ≤ 127) :
    mask1 (mask1 v u) u = v := by
  have hu' : u % 256 = u := Nat.mod_eq_of_lt hu
  have hw : wrapU 8 (v + 128) = (v + 128).toNat := by
    unfold wrapU
    rw [Int.emod_eq_of_lt (by omega) (by norm_num; omega)]
  have ha : (v + 128).toNat < 256 := by omega
  unfold mask1
  rw [hu', hw]
  have hx : (v + 128).toNat ^^^ u < 256 := by
    have : (256 : Nat) = 2 ^ 8 := by norm_num
    rw [this] at ha hu ⊢
    exact Nat.xor_lt_two_pow ha hu
  have hsimp : (((((v + 128).toNat ^^^ u : Nat) : Int) - 128) + 128)
      = (((v + 128).toNat ^^^ u : Nat) : Int) := by ring
  rw [hsimp]
  have hw2 : wrapU 8 ((((v + 128).toNat ^^^ u : Nat) : Int))
      = (v + 128).toNat ^^^ u := by
    have : (256 : Nat) = 2 ^ 8 := by norm_num
    exact wrapU_natCast 8 _ (by omega)
  rw [hw2, Nat.xor_cancel_right]
  omega

/-- Keystream domains are positive for every width argument. -/
lemma maskDom_pos (sw : Nat) : 0 < maskDom sw := by
  unfold maskDom
  split
  · norm_num
  · split <;> norm_num

/-- Masking any sample twice with the same keystream pattern recovers
the sample, for a supported width, an in-domain sample and an in-domain
pattern. -/
lemma maskOp_invol (sw : Nat) (hsw : sw = 1 ∨ sw = 2 ∨ sw = 4) (v : Int)
    (hd : sampleInDom sw v = true) (u : Nat) (hu : u < maskDom sw) :
    maskOp sw (maskOp sw v u) u = v := by
  rcases hsw with h | h | h <;> subst h <;>
    simp [sampleInDom] at hd <;> simp [maskDom] at hu <;> simp [maskOp]
  · exact mask1_invol v u hu hd.1 hd.2
  · exact maskS_invol 16 (by norm_num) v u (by norm_num; omega)
      (by norm_num; omega) (by norm_num; omega)
  · exact maskS_invol 32 (by norm_num) v u (by norm_num; omega)
      (by norm_num; omega) (by norm_num; omega)

/-- Unfolding of maskFlatAt on an empty sample list. -/
lemma maskFlatAt_nil (sw : Nat) (ks : Nat → Nat → Nat) (seed pos : Nat) :
    maskFlatAt sw ks seed pos [] = [] := rfl

/-- Values of the per-width draw stream lie inside the keystream domain
of the width. -/
lemma wordVal_lt (sw : Nat) (ks : Nat → Nat → Nat) (seed pos i : Nat) :
    wordVal sw ks seed pos i < maskDom sw := by
  by_cases h1 : sw = 1
  · subst h1
    simp only [wordVal, maskDom]
    norm_num
    exact Nat.mod_lt _ (by norm_num)
  · by_cases h2 : sw = 2
    · subst h2
      simp only [wordVal, maskDom]
      norm_num
      exact Nat.mod_lt _ (by norm_num)
    · simp only [wordVal, maskDom, if_neg h1, if_neg h2]
      exact Nat.mod_lt _ (by norm_num)

/-- Reading the draw stream past a whole number of buffer words is the
same as reading a later call that starts there: position n + j of a call
at word pos equals position j of a call at word pos + wordsUsed sw n,
whenever n fills whole words.  This is exactly what fails for a partly
filled word, whose remainder a real call discards. -/
lemma wordVal_shift (sw : Nat) (ks : Nat → Nat → Nat) (seed pos n j : Nat)
    (h : perWord sw ∣ n) :
    wordVal sw ks seed pos (n + j) = wordVal sw ks seed (pos + wordsUsed sw n) j := by
  by_cases h1 : sw = 1
  · subst h1
    simp [perWord] at h
    obtain ⟨m, rfl⟩ := h
    simp only [wordVal, wordsUsed]
    norm_num
    rw [show pos + (4 * m + 3) / 4 = pos + m from by omega,
      show (4 * m + j) / 4 = m + j / 4 from by omega,
      show (4 * m + j) % 4 = j % 4 from by omega,
      show pos + (m + j / 4) = pos + m + j / 4 from by omega]
  · by_cases h2 : sw = 2
    · subst h2
      simp [perWord] at h
      obtain ⟨m, rfl⟩ := h
      simp only [wordVal, wordsUsed]
      norm_num
      rw [show pos + (2 * m + 1) / 2 = pos + m from by omega,
        show (2 * m + j) / 2 = m + j / 2 from by omega,
        show (2 * m + j) % 2 = j % 2 from by omega,
        show pos + (m + j / 2) = pos + m + j / 2 from by omega]
    · simp only [wordVal, wordsUsed, if_neg h1, if_neg h2]
      rw [show pos + (n + j) = pos + n + j from by omega]

/-- Applying the per-sample masking operation twice with the same mask
list is the identity, for in-domain samples and in-domain masks. -/
lemma zipWith_maskOp_invol (sw : Nat) (hsw : sw = 1 ∨ sw = 2 ∨ sw = 4) :
    ∀ (l : List Int) (us : List Nat), l.length ≤ us.length →
      (∀ v ∈ l, sampleInDom sw v = true) → (∀ u ∈ us, u < maskDom sw) →
      List.zipWith (maskOp sw) (List.zipWith (maskOp sw) l us) us = l := by
  intro l
  induction l with
  | nil => intro us _ _ _; simp
  | cons v l ih =>
    intro us hlen hd hu
    cases us with
    | nil => simp at hlen
    | cons u us =>
      simp only [List.zipWith_cons_cons]
      rw [maskOp_invol sw hsw v (hd v (List.mem_cons_self v l)) u
          (hu u (List.mem_cons_self u us)),
        ih us (by simpa using hlen)
          (fun w hw => hd w (List.mem_cons_of_mem v hw))
          (fun w hw => hu w (List.mem_cons_of_mem u hw))]

/-- Masking twice from the same seed and word position is the identity
on sample lists whose values are in the domain of a supported width. -/
lemma maskFlatAt_invol (sw : Nat) (hsw : sw = 1 ∨ sw = 2 ∨ sw = 4)
    (ks : Nat → Nat → Nat) (seed : Nat) (l : List Int)
    (hdom : ∀ v ∈ l, sampleInDom sw v = true) (pos : Nat) :
    maskFlatAt sw ks seed pos (maskFlatAt sw ks seed pos l) = l := by
  unfold maskFlatAt
  rw [List.length_zipWith, List.length_map, List.length_range, min_self]
  exact zipWith_maskOp_invol sw hsw l _ (by simp) hdom
    (fun u hu => by
      obtain ⟨i, _, rfl⟩ := List.mem_map.mp hu
      exact wordVal_lt sw ks seed pos i)

/-- Lengths are preserved by maskFlatAt. -/
lemma maskFlatAt_length (sw : Nat) (ks : Nat → Nat → Nat) (seed pos : Nat)
    (l : List Int) : (maskFlatAt sw ks seed pos l).length = l.length := by
  unfold maskFlatAt
  simp

/-- Masking a concatenation splits into masking the parts, with the word
position advanced by the words the first part consumed, provided the
first part fills whole buffer words or nothing follows it.  A first part
ending inside a word does not split this way: the whole-buffer call
reads on inside the word while a fresh call discards its remainder. -/
lemma maskFlatAt_append (sw : Nat) (ks : Nat → Nat → Nat) (seed pos : Nat)
    (a b : List Int) (hal : perWord sw ∣ a.length ∨ b = []) :
    maskFlatAt sw ks seed pos (a ++ b)
      = maskFlatAt sw ks seed pos a
        ++ maskFlatAt sw ks seed (pos + wordsUsed sw a.length) b := by
  rcases hal with hal | rfl
  · unfold maskFlatAt
    rw [List.length_append, List.range_add, List.map_append, List.map_map,
      List.zipWith_append _ _ _ _ _ (by simp)]
    congr 1
    have hm : List.map ((fun i => wordVal sw ks seed pos i) ∘ (a.length + ·))
        (List.range b.length)
        = List.map (fun i => wordVal sw ks seed (pos + wordsUsed sw a.length) i)
          (List.range b.length) :=
      List.map_congr_left fun j _ => by
        simp only [Function.comp_apply]
        exact wordVal_shift sw ks seed pos a.length j hal
    rw [hm]
  · simp [maskFlatAt]

/-- Width selection lemmas for the per-sample masking operation. -/
lemma maskOp_one : maskOp 1 = mask1 := by
  funext v u
  simp [maskOp]

/-- Width 2 selects the 16-bit signed masking operation. -/
lemma maskOp_two : maskOp 2 = maskS 16 := by
  funext v u
  simp [maskOp]

/-- Width 4 selects the 32-bit signed masking operation. -/
lemma maskOp_four : maskOp 4 = maskS 32 := by
  funext v u
  simp [maskOp]

/-- Characterization of a successful masking-core run: on a well-formed
(frames, channels) matrix of a supported width, the core succeeds, its
flat output is maskFlatAt at the current seed and position, and the
generator advances by exactly the sample count. -/
lemma applyMaskCore_ok (ks : Nat → Nat → Nat) (sw nch f : Nat)
    (flat : List Int) (g : Gen) (hsw : sw = 1 ∨ sw = 2 ∨ sw = 4)
    (hlen : flat.length = f * nch) :
    applyMaskCore ks sw nch ⟨[f, nch], flat⟩ g
      = (.ok ⟨[f, nch], maskFlatAt sw ks g.seed g.pos flat⟩,
         ⟨g.seed, g.pos + wordsUsed sw flat.length⟩) := by
  rcases hsw with h | h | h <;> subst h <;>
    simp only [applyMaskCore, ensure2d, integersN, finishMask, bcast1,
      maskFlatAt, List.length_cons, List.length_nil, List.headI,
      reduceIte, if_true, if_false] <;>
    rw [← hlen] <;>
    simp [List.length_zipWith, hlen, maskOp_one, maskOp_two, maskOp_four]

/-- Characterization of a successful streaming chunk call: with an
initialized stream of a supported width and a frame-aligned flat chunk,
the call succeeds, returns the masked flat chunk, and advances the
stored generator by the chunk length. -/
lemma processStreamChunk_ok (ks : Nat → Nat → Nat) (seed pos sw nch : Nat)
    (flat : List Int) (hsw : sw = 1 ∨ sw = 2 ∨ sw = 4) (_hnch : nch ≠ 0)
    (halign : flat.length % nch = 0) :
    processStreamChunk ks ⟨some ⟨seed, pos⟩, some sw, some nch⟩ ⟨[flat.length], flat⟩
      = (.ok ⟨[flat.length], maskFlatAt sw ks seed pos flat⟩,
         ⟨some ⟨seed, pos + wordsUsed sw flat.length⟩, some sw, some nch⟩) := by
  have hlen : flat.length = (flat.length / nch) * nch :=
    (Nat.div_mul_cancel (Nat.dvd_of_mod_eq_zero halign)).symm
  have hcore := applyMaskCore_ok ks sw nch (flat.length / nch) flat ⟨seed, pos⟩ hsw hlen
  simp only [processStreamChunk, List.length_cons, List.length_nil,
    reduceIte, halign]
  simp [hcore, Except.map, maskFlatAt_length]


/-- Unfolding of streamChunks on a first chunk and the rest. -/
lemma streamChunks_cons_fst (ks : Nat → Nat → Nat) (st : ScramblerSt)
    (c : List Int) (cs : List (List Int)) :
    (streamChunks ks st (c :: cs)).1
      = (match (processStreamChunk ks st ⟨[c.length], c⟩).1 with
         | .ok a => a.flat
         | .error _ => [])
        :: (streamChunks ks (processStreamChunk ks st ⟨[c.length], c⟩).2 cs).1 := rfl

/-- Sequentially streamed chunks concatenate to the mask of the
concatenation when every chunk before the last fills whole buffer
words, the word position threading through the calls. -/
lemma streamChunks_join (ks : Nat → Nat → Nat) (seed sw nch : Nat)
    (hsw : sw = 1 ∨ sw = 2 ∨ sw = 4) (hnch : nch ≠ 0) :
    ∀ (chunks : List (List Int)) (pos : Nat),
      (∀ c ∈ chunks, c.length % nch = 0) →
      (∀ c ∈ chunks.dropLast, perWord sw ∣ c.length) →
      (streamChunks ks ⟨some ⟨seed, pos⟩, some sw, some nch⟩ chunks).1.flatten
        = maskFlatAt sw ks seed pos chunks.flatten := by
  intro chunks
  induction chunks with
  | nil => intro pos _ _; simp [streamChunks, maskFlatAt]
  | cons c cs ih =>
    intro pos halign hword
    have hc := processStreamChunk_ok ks seed pos sw nch c hsw hnch
      (halign c (List.mem_cons_self c cs))
    cases cs with
    | nil => simp [streamChunks, hc]
    | cons c2 cs2 =>
      have hd : perWord sw ∣ c.length :=
        hword c (by rw [List.dropLast_cons₂]; exact List.mem_cons_self _ _)
      have ht1 : ∀ d ∈ c2 :: cs2, d.length % nch = 0 :=
        fun d hd2 => halign d (List.mem_cons_of_mem c hd2)
      have ht2 : ∀ d ∈ (c2 :: cs2).dropLast, perWord sw ∣ d.length :=
        fun d hd2 => hword d (by
          rw [List.dropLast_cons₂]
          exact List.mem_cons_of_mem c hd2)
      rw [streamChunks_cons_fst]
      simp only [hc, List.flatten_cons]
      rw [ih (pos + wordsUsed sw c.length) ht1 ht2,
        ← maskFlatAt_append sw ks seed pos c (c2 :: cs2).flatten (Or.inl hd)]
      rfl

/-- Claim C1: applying the masking core twice to a valid PCM matrix of a
supported sample width, each time with a keystream generator freshly
constructed from the same seed, returns the matrix exactly. -/
theorem mask_involution (ks : Nat → Nat → Nat) (seed sw nch f : Nat)
    (flat : List Int) (hsw : sw = 1 ∨ sw = 2 ∨ sw = 4)
    (hlen : flat.length = f * nch)
    (hdom : ∀ v ∈ flat, sampleInDom sw v = true) :
    ∃ m, (applyMaskCore ks sw nch ⟨[f, nch], flat⟩ (defaultRng seed)).1 = .ok m
      ∧ (applyMaskCore ks sw nch m (defaultRng seed)).1 = .ok ⟨[f, nch], flat⟩ := by
  refine ⟨⟨[f, nch], maskFlatAt sw ks seed 0 flat⟩, ?_, ?_⟩
  · rw [applyMaskCore_ok ks sw nch f flat (defaultRng seed) hsw hlen]
    rfl
  · have hlen2 : (maskFlatAt sw ks seed 0 flat).length = f * nch := by
      rw [maskFlatAt_length]; exact hlen
    rw [applyMaskCore_ok ks sw nch f _ (defaultRng seed) hsw hlen2]
    show Except.ok (⟨[f, nch],
      maskFlatAt sw ks seed 0 (maskFlatAt sw ks seed 0 flat)⟩ : NdArr) = _
    rw [maskFlatAt_invol sw hsw ks seed flat hdom 0]

/-- Witness for C1 at the concrete scenario of the specification: seed
12345, mono 16-bit samples 100, -200, 32000. -/
theorem mask_involution_witness :
    ∃ m, (applyMaskCore ksTest 2 1 ⟨[3, 1], [100, -200, 32000]⟩ (defaultRng 12345)).1 = .ok m
      ∧ (applyMaskCore ksTest 2 1 m (defaultRng 12345)).1 = .ok ⟨[3, 1], [100, -200, 32000]⟩ :=
  mask_involution ksTest 12345 2 1 3 [100, -200, 32000]
    (by norm_num) (by decide) (by decide)

/-- Claim C2: two generators independently constructed from equal seeds
produce identical value sequences on the same sequence of domain
requests, and any two generators in equal states do. -/
theorem generator_determinism (ks : Nat → Nat → Nat) (s1 s2 : Nat)
    (reqs : List (Nat × Nat)) (hseed : s1 = s2) :
    (runRequests ks (defaultRng s1) reqs).1 = (runRequests ks (defaultRng s2) reqs).1
      ∧ ∀ g1 g2 : Gen, g1.seed = g2.seed → g1.pos = g2.pos →
          runRequests ks g1 reqs = runRequests ks g2 reqs := by
  have hext : ∀ g1 g2 : Gen, g1.seed = g2.seed → g1.pos = g2.pos →
      runRequests ks g1 reqs = runRequests ks g2 reqs := by
    intro g1 g2 h1 h2
    have : g1 = g2 := by cases g1; cases g2; simp_all
    rw [this]
  exact ⟨by rw [hseed], hext⟩

/-- Witness for C2: seed 12345 with a byte request then an int16 request. -/
theorem generator_determinism_witness :
    (runRequests ksTest (defaultRng 12345) [(256, 3), (65536, 2)]).1
        = (runRequests ksTest (defaultRng 12345) [(256, 3), (65536, 2)]).1
      ∧ ∀ g1 g2 : Gen, g1.seed = g2.seed → g1.pos = g2.pos →
          runRequests ksTest g1 [(256, 3), (65536, 2)]
            = runRequests ksTest g2 [(256, 3), (65536, 2)] :=
  generator_determinism ksTest 12345 12345 [(256, 3), (65536, 2)] rfl

/-- Counterexample to claim C3 as stated: mono 16-bit samples
[10, 20, 30] (every partition is frame-aligned at one channel), split
into the sub-chunks [10] and [20, 30].  The whole-buffer call masks the
three samples with the two halves of word 0 and the low half of word 1;
the first chunk call consumes word 0 for one value and discards its high
half, so the second call masks with the halves of word 1, and the
concatenated streamed output differs from the whole-buffer output at the
second and third samples. -/
theorem chunking_not_invariant :
    (processStreamChunk ksTest (initStream 9 2 1) ⟨[3], [10, 20, 30]⟩).1
        = .ok ⟨[3], wholeOut3⟩
      ∧ (streamChunks ksTest (initStream 9 2 1) [[10], [20, 30]]).1.flatten
        = chunkedOut3
      ∧ wholeOut3 ≠ chunkedOut3 :=
  ⟨rfl, rfl, by decide⟩

/-- Claim C3 as amended: after one init_stream, streaming a
frame-aligned partition of a buffer through process_chunk yields,
concatenated, the same samples as one process_chunk call on the whole
buffer, provided every sub-chunk except possibly the last also fills
whole generator buffer words (its sample count is a multiple of four at
width 1 and of two at width 2; any count at width 4).  A sub-chunk that
ends inside a buffer word realigns the keystream, because the fill
buffer is discarded between integers calls. -/
theorem chunking_invariance_aligned (ks : Nat → Nat → Nat) (seed sw nch : Nat)
    (chunks : List (List Int)) (hsw : sw = 1 ∨ sw = 2 ∨ sw = 4)
    (hnch : nch ≠ 0) (halign : ∀ c ∈ chunks, c.length % nch = 0)
    (hword : ∀ c ∈ chunks.dropLast, perWord sw ∣ c.length) :
    (processStreamChunk ks (initStream seed sw nch)
        ⟨[chunks.flatten.length], chunks.flatten⟩).1
      = .ok ⟨[chunks.flatten.length],
          (streamChunks ks (initStream seed sw nch) chunks).1.flatten⟩ := by
  have hjoin : chunks.flatten.length % nch = 0 := by
    rw [List.length_flatten]
    obtain ⟨t, ht⟩ : nch ∣ (chunks.map List.length).sum := by
      refine List.dvd_sum ?_
      intro x hx
      obtain ⟨c, hc, rfl⟩ := List.mem_map.mp hx
      exact Nat.dvd_of_mod_eq_zero (halign c hc)
    rw [ht, Nat.mul_mod_right]
  have hwhole := processStreamChunk_ok ks seed 0 sw nch chunks.flatten hsw hnch hjoin
  have hparts := streamChunks_join ks seed sw nch hsw hnch chunks 0 halign hword
  show (processStreamChunk ks ⟨some ⟨seed, 0⟩, some sw, some nch⟩
      ⟨[chunks.flatten.length], chunks.flatten⟩).1 = _
  rw [hwhole,
    show initStream seed sw nch = (⟨some ⟨seed, 0⟩, some sw, some nch⟩ : ScramblerSt) from rfl,
    hparts]

/-- Witness for the amended C3: seed 9, 16-bit stereo, the buffer split
into a one frame chunk (two samples, one whole buffer word) followed by
a two frame chunk. -/
theorem chunking_invariance_aligned_witness :
    (processStreamChunk ksTest (initStream 9 2 2)
        ⟨[([[1, 2], [3, 4, 5, 6]] : List (List Int)).flatten.length],
         ([[1, 2], [3, 4, 5, 6]] : List (List Int)).flatten⟩).1
      = .ok ⟨[([[1, 2], [3, 4, 5, 6]] : List (List Int)).flatten.length],
          (streamChunks ksTest (initStream 9 2 2) [[1, 2], [3, 4, 5, 6]]).1.flatten⟩ :=
  chunking_invariance_aligned ksTest 9 2 2 [[1, 2], [3, 4, 5, 6]]
    (by norm_num) (by norm_num) (by decide) (by decide)

/-- Claim C5: on the same valid PCM data and the same seed, the
file-level transform (fresh generator from the seed, masking core on the
decoded matrix) and the streaming path (init_stream then one
process_chunk on the whole buffer) both succeed and produce the same
masked sample sequence. -/
theorem file_stream_equiv (ks : Nat → Nat → Nat) (seed sw nch f : Nat)
    (flat : List Int) (hsw : sw = 1 ∨ sw = 2 ∨ sw = 4) (hnch : nch ≠ 0)
    (hlen : flat.length = f * nch) :
    (applyMaskCore ks sw nch ⟨[f, nch], flat⟩ (defaultRng seed)).1
        = .ok ⟨[f, nch], maskFlatAt sw ks seed 0 flat⟩
      ∧ (processStreamChunk ks (initStream seed sw nch) ⟨[flat.length], flat⟩).1
        = .ok ⟨[flat.length], maskFlatAt sw ks seed 0 flat⟩ := by
  constructor
  · rw [applyMaskCore_ok ks sw nch f flat (defaultRng seed) hsw hlen]
    rfl
  · have halign : flat.length % nch = 0 := by
      rw [hlen, Nat.mul_mod_left]
    show (processStreamChunk ks ⟨some ⟨seed, 0⟩, some sw, some nch⟩
        ⟨[flat.length], flat⟩).1 = _
    rw [processStreamChunk_ok ks seed 0 sw nch flat hsw hnch halign]

/-- Witness for C5: seed 12345, 16-bit stereo, two frames. -/
theorem file_stream_equiv_witness :
    (applyMaskCore ksTest 2 2 ⟨[2, 2], [7, -8, 9, -10]⟩ (defaultRng 12345)).1
        = .ok ⟨[2, 2], maskFlatAt 2 ksTest 12345 0 [7, -8, 9, -10]⟩
      ∧ (processStreamChunk ksTest (initStream 12345 2 2)
          ⟨[([7, -8, 9, -10] : List Int).length], [7, -8, 9, -10]⟩).1
        = .ok ⟨[([7, -8, 9, -10] : List Int).length],
            maskFlatAt 2 ksTest 12345 0 [7, -8, 9, -10]⟩ :=
  file_stream_equiv ksTest 12345 2 2 2 [7, -8, 9, -10]
    (by norm_num) (by norm_num) (by decide)

/-- Claim C4 evaluation: on an unsupported sample width (3 bytes) the
masking core does not fail; it returns the input data unchanged and
draws no keystream values.  This is the silent pass-through the
specification corrects to MaskError UnsupportedWidth. -/
theorem unsupported_width_passthrough :
    applyMaskCore ksTest 3 2 ⟨[1, 2], [5, 6]⟩ ⟨12345, 0⟩
      = (.ok ⟨[1, 2], [5, 6]⟩, ⟨12345, 0⟩) := rfl

/-- Claim C7: process_chunk fails with the not-initialized RuntimeError
whenever no stream generator exists, and with the misaligned-chunk
ValueError on a flat chunk whose length the channel count does not
divide; in both failure cases the state, and with it the keystream
position reached by prior successful chunks, is unchanged. -/
theorem process_chunk_failures (ks : Nat → Nat → Nat)
    (o1 o2 : Option Nat) (chunk : NdArr) (g : Gen) (sw nch : Nat)
    (flat : List Int) (hmis : flat.length % nch ≠ 0) :
    processStreamChunk ks ⟨none, o1, o2⟩ chunk
        = (.error .notInitErr, ⟨none, o1, o2⟩)
      ∧ processStreamChunk ks ⟨some g, some sw, some nch⟩ ⟨[flat.length], flat⟩
        = (.error .misalignedErr, ⟨some g, some sw, some nch⟩) := by
  constructor
  · rfl
  · simp [processStreamChunk, hmis]

/-- Witness for C7: an uninitialized call, and a length-5 chunk with
two channels against a generator that already advanced to position 6. -/
theorem process_chunk_failures_witness :
    processStreamChunk ksTest ⟨none, some 2, some 2⟩ ⟨[4], [1, 2, 3, 4]⟩
        = (.error .notInitErr, ⟨none, some 2, some 2⟩)
      ∧ processStreamChunk ksTest ⟨some ⟨12345, 6⟩, some 2, some 2⟩
          ⟨[([1, 2, 3, 4, 5] : List Int).length], [1, 2, 3, 4, 5]⟩
        = (.error .misalignedErr, ⟨some ⟨12345, 6⟩, some 2, some 2⟩) :=
  process_chunk_failures ksTest (some 2) (some 2) ⟨[4], [1, 2, 3, 4]⟩
    ⟨12345, 6⟩ 2 2 [1, 2, 3, 4, 5] (by decide)

/-- Claim C10: a pre-shaped 2-D chunk whose channel dimension differs
from the configured channel count is not rejected as a misaligned chunk;
the keystream length is rows times the configured channel count, so the
call draws those four 16-bit values (consuming two buffered words, the
stored generator advancing from word 0 to word 2) and then raises the
untyped numpy broadcast ValueError. -/
theorem chunk_shape_unchecked :
    processStreamChunk ksTest (initStream 12345 2 2) ⟨[2, 3], [1, 2, 3, 4, 5, 6]⟩
      = (.error .broadcastErr, ⟨some ⟨12345, 2⟩, some 2, some 2⟩) := rfl


/-- Claim C6: (a) decoding an empty byte sequence fails; (b) a decoded
flat sample count the channel count does not divide is silently trimmed
to the largest whole number of frames; (c) when trimming leaves zero
frames the decoder fails; (d) the width-1 decode path routes through the
same reshape-and-trim stage on the widened shifted samples. -/
theorem decoder_trim_and_failures :
    (∀ sr sw nch, readWavInt [] sr sw nch = .fail)
      ∧ (∀ (data : List Int) (sr sw nch : Nat), nch ≠ 0 →
          data.length % nch ≠ 0 → 0 < data.length / nch →
          finishRead data sr sw nch
            = .ok ⟨[data.length / nch, nch], data.take (data.length / nch * nch)⟩ sr sw nch)
      ∧ (∀ (data : List Int) (sr sw nch : Nat), nch ≠ 0 →
          data.length % nch ≠ 0 → data.length / nch = 0 →
          finishRead data sr sw nch = .fail)
      ∧ (∀ (raw : List Nat) (sr nch : Nat), raw ≠ [] →
          readWavInt raw sr 1 nch
            = finishRead (raw.map fun b => ((b % 256 : Nat) : Int) - 128) sr 1 nch) := by
  refine ⟨?_, ?_, ?_, ?_⟩
  · intro sr sw nch
    simp [readWavInt]
  · intro data sr sw nch h0 hmod hfr
    simp only [finishRead, if_neg h0, if_neg hmod]
    rw [if_neg (by omega)]
  · intro data sr sw nch h0 hmod hfr
    simp only [finishRead, if_neg h0, if_neg hmod]
    rw [if_pos hfr]
  · intro raw sr nch hne
    simp [readWavInt, hne]

/-- Witness for C6: the empty container, a five-sample stereo buffer
trimmed to two frames, a one-sample stereo buffer with no complete
frame, and a three-byte 8-bit container routed through the trim stage. -/
theorem decoder_trim_witness :
    readWavInt [] 8000 1 2 = .fail
      ∧ finishRead [1, 2, 3, 4, 5] 8000 2 2 = .ok ⟨[2, 2], [1, 2, 3, 4]⟩ 8000 2 2
      ∧ finishRead [9] 8000 1 2 = .fail
      ∧ readWavInt [10, 20, 30] 8000 1 2
        = finishRead ([10, 20, 30].map fun b => ((b % 256 : Nat) : Int) - 128) 8000 1 2 := by
  refine ⟨decoder_trim_and_failures.1 8000 1 2, ?_, ?_, ?_⟩
  · exact Eq.trans (decoder_trim_and_failures.2.1 [1, 2, 3, 4, 5] 8000 2 2
      (by decide) (by decide) (by decide)) (by decide)
  · exact decoder_trim_and_failures.2.2.1 [9] 8000 1 2 (by decide) (by decide) (by decide)
  · exact decoder_trim_and_failures.2.2.2 [10, 20, 30] 8000 2 (by decide)

/-- Counterexample to claim C8 as stated: on an unreadable input path
(the read attempt yields no file) scramble_file does not fail with a
typed IoError or any error at all; it logs, writes nothing, and returns
normally, so no failure is surfaced to the caller. -/
theorem scramble_file_swallows_read_failure :
    scrambleFile ksTest 12345 none true = .noOutput
      ∧ (scrambleFile ksTest 12345 none true).isFailure = false :=
  ⟨rfl, rfl⟩

/-- Claim C8 as amended: when the input cannot be read, or its decode
fails, scramble_file and unscramble_file write no output and return
normally (the failure is only logged, not surfaced as a typed error);
only a failure while writing the output of a successfully masked file
propagates, as the untyped OS exception. -/
theorem file_error_behaviour (ks : Nat → Nat → Nat) (seed : Nat) (w : Bool)
    (f g : WavFile) (data m : NdArr) (sr sw nch : Nat)
    (hread : readWavInt f.raw f.sr f.sw f.nch = .fail)
    (hgood : readWavInt g.raw g.sr g.sw g.nch = .ok data sr sw nch)
    (hsw : sw = 1 ∨ sw = 2 ∨ sw = 4)
    (hcore : (applyMaskCore ks sw nch data (defaultRng seed)).1 = .ok m) :
    scrambleFile ks seed none w = .noOutput
      ∧ unscrambleFile ks seed none w = .noOutput
      ∧ scrambleFile ks seed (some f) w = .noOutput
      ∧ unscrambleFile ks seed (some f) w = .noOutput
      ∧ scrambleFile ks seed (some g) false = .raised .osWriteErr := by
  refine ⟨rfl, rfl, ?_, ?_, ?_⟩
  · simp [scrambleFile, hread]
  · simp [unscrambleFile, scrambleFile, hread]
  · simp [scrambleFile, hgood, hcore, hsw]


/-- Witness for the amended C8: an unreadable path, a readable container
with no complete frame, and a good 16-bit stereo container written to an
unwritable output path, at seed 77. -/
theorem file_error_behaviour_witness :
    scrambleFile ksTest 77 none true = .noOutput
      ∧ unscrambleFile ksTest 77 none true = .noOutput
      ∧ scrambleFile ksTest 77 (some ⟨9000, 1, 2, [10]⟩) true = .noOutput
      ∧ unscrambleFile ksTest 77 (some ⟨9000, 1, 2, [10]⟩) true = .noOutput
      ∧ scrambleFile ksTest 77 (some ⟨8000, 2, 2, [1, 2, 3, 4]⟩) false
        = .raised .osWriteErr :=
  file_error_behaviour ksTest 77 true ⟨9000, 1, 2, [10]⟩ ⟨8000, 2, 2, [1, 2, 3, 4]⟩
    ⟨[1, 2], [513, 1027]⟩ ⟨[1, 2], [22471, 1279]⟩ 8000 2 2
    rfl rfl (by norm_num) (by rfl)


/-- Clipped values lie inside the unit interval. -/
lemma clipQ_bounds (q : ℚ) : -1 ≤ clipQ q ∧ clipQ q ≤ 1 := by
  unfold clipQ
  split
  · norm_num
  · split
    · norm_num
    · constructor <;> linarith

/-- Shape of a successful mono stage: the value is a list of clipped
normalized row means. -/
lemma waveMono_ok_shape (raw : List Nat) (sw nch : Nat) (cl : List ℚ)
    (h : waveMono raw sw nch = .ok cl) :
    ∃ (data : List Int) (maxAbs : ℚ) (f : Nat),
      cl = (matRows (data.take (f * nch)) f nch).map
        fun row => clipQ (meanRow row / maxAbs) := by
  unfold waveMono at h
  repeat' split at h
  all_goals cases h
  exact ⟨_, _, _, rfl⟩

/-- Every element of a successful mono stage is a clipped value, hence
lies inside the unit interval. -/
lemma waveMono_mem_bounds (raw : List Nat) (sw nch : Nat) (cl : List ℚ)
    (h : waveMono raw sw nch = .ok cl) : ∀ q ∈ cl, -1 ≤ q ∧ q ≤ 1 := by
  obtain ⟨data, maxAbs, f, rfl⟩ := waveMono_ok_shape raw sw nch cl h
  intro q hq
  obtain ⟨row, _, rfl⟩ := List.mem_map.mp hq
  exact clipQ_bounds _

/-- Downsampling preserves the unit-interval bound: every output element
is either one of the mono samples or the default zero. -/
lemma downsampleWave_mem_bounds (cl : List ℚ) (mp : Nat)
    (hb : ∀ q ∈ cl, -1 ≤ q ∧ q ≤ 1) :
    ∀ q ∈ downsampleWave cl mp, -1 ≤ q ∧ q ≤ 1 := by
  intro q hq
  unfold downsampleWave at hq
  split at hq
  · simp at hq
  · split at hq
    · exact hb q hq
    · obtain ⟨i, _, rfl⟩ := List.mem_map.mp hq
      rw [List.getD_eq_getElem?_getD]
      rcases he : cl[i * (cl.length - 1) / (mp - 1)]? with _ | x
      · simp
      · simp only [Option.getD_some]
        exact hb x (List.getElem?_mem he)

/-- Claim C9: the waveform preview returns values inside [-1, 1] always;
when the mono sequence fits in max_points it is returned unchanged, and
otherwise exactly max_points values are returned, picked at the evenly
spaced truncated linspace indices across the mono sequence. -/
theorem waveform_preview (raw : List Nat) (sw nch mp : Nat)
    (out cl : List ℚ) :
    (loadWaveform raw sw nch mp = some out → ∀ q ∈ out, -1 ≤ q ∧ q ≤ 1)
      ∧ (waveMono raw sw nch = .ok cl → cl.length ≤ mp →
          loadWaveform raw sw nch mp = some cl)
      ∧ (waveMono raw sw nch = .ok cl → mp < cl.length →
          loadWaveform raw sw nch mp
              = some ((List.range mp).map fun i =>
                  cl.getD (i * (cl.length - 1) / (mp - 1)) 0)
            ∧ ((List.range mp).map fun i =>
                cl.getD (i * (cl.length - 1) / (mp - 1)) 0).length = mp) := by
  refine ⟨?_, ?_, ?_⟩
  · intro hload q hq
    unfold loadWaveform at hload
    split at hload
    · exact absurd hload (by simp)
    · injection hload with hload
      subst hload
      simp at hq
    · rename_i cl2 hmono
      injection hload with hload
      subst hload
      exact downsampleWave_mem_bounds cl2 mp (waveMono_mem_bounds raw sw nch cl2 hmono) q hq
  · intro hmono hle
    simp only [loadWaveform, hmono]
    unfold downsampleWave
    rcases Nat.eq_zero_or_pos cl.length with hz | hpos
    · rw [if_pos hz, List.length_eq_zero.mp hz]
    · rw [if_neg (by omega), if_pos hle]
  · intro hmono hgt
    constructor
    · simp only [loadWaveform, hmono]
      unfold downsampleWave
      rw [if_neg (by omega), if_neg (by omega)]
    · simp

/-- Witness for C9: the six-sample container downsampled to three
points with every output value inside the unit interval, and returned
unchanged when ten points are allowed. -/
theorem waveform_preview_witness :
    (∀ q ∈ wfOut, -1 ≤ q ∧ q ≤ 1)
      ∧ loadWaveform wfRaw 1 1 3 = some wfOut
      ∧ loadWaveform wfRaw 1 1 10 = some wfMono := by
  have h3 := waveform_preview wfRaw 1 1 3 wfOut wfMono
  have h10 := waveform_preview wfRaw 1 1 10 wfMono wfMono
  have hmono : waveMono wfRaw 1 1 = .ok wfMono := by
    norm_num [waveMono, waveDecode, matRows, meanRow, clipQ, wfRaw, wfMono,
      List.range_succ]
  have hload := (h3.2.2 hmono (by decide)).1
  exact ⟨h3.1 hload, hload, h10.2.1 hmono (by decide)⟩

end AudioScrambler
